import Mathlib

/-!
Verification of `CsvDataProcessor` (src/src/CsvDataProcessor.ts).

The class validates CSV rows of financial-contract data: a taxpayer-id
checksum (CPF for 11 digits, CNPJ for 14), an installment-arithmetic
consistency check, normalization of accepted rows (integer parses and
pt-BR BRL currency formatting), and a batching accumulator with a
processed count and two result collections.

Modelling conventions:
- JavaScript strings are Lean `String`s; `s.replace(/\D/g, '')` is a
  character filter; `s.length` is the character count.
- JavaScript numbers are modelled as exact rationals (`ℚ`); `NaN`
  (failed parse) is `Option.none`.  `parseFloat` / `parseInt` are
  modelled on decimal literals (optional leading whitespace, optional
  sign, digit runs), without exponent or `Infinity` forms.
- The mutable instance state `{success_results, error_results, count}`
  is an explicit `ProcState` value; array `push` appends on the right.
-/

namespace CsvDataProcessor

/-- Numeric value of a decimal digit character (JS `parseInt(c)` on a digit). -/
def digitVal (c : Char) : Nat := c.toNat - 48

/-- `s.replace(/\D/g, '')` — keep only the decimal-digit characters. -/
def stripNonDigits (s : String) : List Char := s.data.filter (fun c => c.isDigit)

/-- The regex `^(\d)\1{10}$` / `^(\d)\1{13}$` applied to an all-digit string of
the right length: all characters equal the first. -/
def allSameChars : List Char → Bool
  | [] => true
  | c :: rest => rest.all (fun x => x == c)

/-- `calcularDigito` from `validateCPF` (and, identically, `calcularDigitoCNPJ`
from `validateCNPJ`): weighted digit sum, remainder mod 11, check digit
`0` if the remainder is below 2, else `11 - remainder`. -/
def calcularDigito (numeros : List Char) (pesos : List Nat) : Nat :=
  let soma := (List.zip numeros pesos).foldl (fun acc p => acc + digitVal p.1 * p.2) 0
  let resto := soma % 11
  if resto < 2 then 0 else 11 - resto

/-- `validateCPF`: strip non-digits; require exactly 11 digits, not all
identical; check both verification digits. -/
def validateCPF (cpf : String) : Bool :=
  let d := stripNonDigits cpf
  if d.length ≠ 11 ∨ allSameChars d then false
  else
    let primeiroDigito := calcularDigito (d.take 9) [10, 9, 8, 7, 6, 5, 4, 3, 2]
    if digitVal (d.getD 9 ' ') ≠ primeiroDigito then false
    else
      let segundoDigito := calcularDigito (d.take 10) [11, 10, 9, 8, 7, 6, 5, 4, 3, 2]
      digitVal (d.getD 10 ' ') == segundoDigito

/-- `validateCNPJ`: strip non-digits; require exactly 14 digits, not all
identical; check both verification digits. -/
def validateCNPJ (cnpj : String) : Bool :=
  let d := stripNonDigits cnpj
  if d.length ≠ 14 ∨ allSameChars d then false
  else
    let primeiroDigito := calcularDigito (d.take 12) [5, 4, 3, 2, 9, 8, 7, 6, 5, 4, 3, 2]
    if digitVal (d.getD 12 ' ') ≠ primeiroDigito then false
    else
      let segundoDigito := calcularDigito (d.take 13) [6, 5, 4, 3, 2, 9, 8, 7, 6, 5, 4, 3, 2]
      digitVal (d.getD 13 ' ') == segundoDigito

/-! ## Specification-side restatement of the checksum rules

`cpfSpec` / `cnpjSpec` follow the wording of the specification: work on the
list of digit *values* of the stripped string, form the weighted sums with
the stated weight lists, and compare the stated positions. -/

/-- Digit values of the taxpayer-id field after removing non-digits. -/
def digitsOf (s : String) : List Nat :=
  (s.data.filter (fun c => c.isDigit)).map digitVal

/-- Check digit of the specification: weighted sum, `remainder = sum mod 11`,
check digit `0` when `remainder < 2`, else `11 - remainder`. -/
def specCheckDigit (ds : List Nat) (ws : List Nat) : Nat :=
  let remainder := (List.zipWith (fun a b => a * b) ds ws).sum % 11
  if remainder < 2 then 0 else 11 - remainder

/-- The 11-digit (CPF) rule as the specification states it. -/
def cpfSpec (s : String) : Prop :=
  (digitsOf s).length = 11 ∧
  ¬ (∀ x ∈ digitsOf s, x = (digitsOf s).headD 0) ∧
  (digitsOf s).getD 9 0 =
    specCheckDigit ((digitsOf s).take 9) [10, 9, 8, 7, 6, 5, 4, 3, 2] ∧
  (digitsOf s).getD 10 0 =
    specCheckDigit ((digitsOf s).take 10) [11, 10, 9, 8, 7, 6, 5, 4, 3, 2]

/-- The 14-digit (CNPJ) rule as the specification states it. -/
def cnpjSpec (s : String) : Prop :=
  (digitsOf s).length = 14 ∧
  ¬ (∀ x ∈ digitsOf s, x = (digitsOf s).headD 0) ∧
  (digitsOf s).getD 12 0 =
    specCheckDigit ((digitsOf s).take 12) [5, 4, 3, 2, 9, 8, 7, 6, 5, 4, 3, 2] ∧
  (digitsOf s).getD 13 0 =
    specCheckDigit ((digitsOf s).take 13) [6, 5, 4, 3, 2, 9, 8, 7, 6, 5, 4, 3, 2]

instance (s : String) : Decidable (cpfSpec s) := by
  unfold cpfSpec; infer_instance

instance (s : String) : Decidable (cnpjSpec s) := by
  unfold cnpjSpec; infer_instance

/-! ## Number parsing

`parseFloat` / `parseInt(·, 10)` modelled on decimal literals: skip leading
whitespace, optional sign, then digits (for `parseFloat`, optionally a
decimal point and a fractional digit run — at least one digit overall).
Trailing non-numeric characters are ignored, as in JavaScript; a string
with no leading numeric prefix parses to `NaN`, modelled as `none`. -/

/-- Whitespace skipped by the JavaScript number parsers. -/
def isJsSpace (c : Char) : Bool :=
  c == ' ' || c == '\t' || c == '\n' || c == '\r'

/-- Accumulate a digit run into a natural number, most significant first. -/
def digitsToNat (l : List Char) : Nat :=
  l.foldl (fun acc c => 10 * acc + digitVal c) 0

/-- Split an optional leading sign, returning the sign as `1` or `-1`. -/
def splitSign : List Char → Int × List Char
  | '-' :: rest => (-1, rest)
  | '+' :: rest => (1, rest)
  | l => (1, l)

/-- `parseFloat(s)` as an exact rational; `none` models `NaN`. -/
def parseFloatQ (s : String) : Option ℚ :=
  let l := s.data.dropWhile isJsSpace
  let sl := splitSign l
  let ipart := sl.2.takeWhile (fun c => c.isDigit)
  let rest := sl.2.dropWhile (fun c => c.isDigit)
  let fpart : List Char :=
    match rest with
    | '.' :: r => r.takeWhile (fun c => c.isDigit)
    | _ => []
  if ipart.isEmpty ∧ fpart.isEmpty then none
  else
    some ((sl.1 : ℚ) *
      ((digitsToNat ipart : ℚ) + (digitsToNat fpart : ℚ) / (10 : ℚ) ^ fpart.length))

/-- `parseInt(s, 10)` as an integer; `none` models `NaN`. -/
def parseIntZ (s : String) : Option ℤ :=
  let l := s.data.dropWhile isJsSpace
  let sl := splitSign l
  let ipart := sl.2.takeWhile (fun c => c.isDigit)
  if ipart.isEmpty then none
  else some (sl.1 * (digitsToNat ipart : ℤ))

/-! ## Record types (src/src/types.ts) -/

/-- `ICSVData`: one raw CSV row, every field a string. -/
structure ICSVData where
  nrInst : String
  nrAgencia : String
  cdClient : String
  nmClient : String
  nrCpfCnpj : String
  nrContrato : String
  dtContrato : String
  qtPrestacoes : String
  vlTotal : String
  cdProduto : String
  dsProduto : String
  cdCarteira : String
  dsCarteira : String
  nrProposta : String
  nrPresta : String
  tpPresta : String
  nrSeqPre : String
  dtVctPre : String
  vlPresta : String
  vlMora : String
  vlMulta : String
  vlOutAcr : String
  vlIof : String
  vlDescon : String
  vlAtual : String
  idSituac : String
  idSitVen : String
deriving DecidableEq, Repr

/-- `IData`: a normalized record.  Integer fields hold the result of
`parseInt(·, 10)` (`none` models `NaN`); monetary fields hold the
currency-formatted display string. -/
structure IData where
  nrInst : Option ℤ
  nrAgencia : Option ℤ
  cdClient : Option ℤ
  nmClient : String
  nrCpfCnpj : String
  nrContrato : Option ℤ
  dtContrato : String
  qtPrestacoes : Option ℤ
  vlTotal : String
  cdProduto : Option ℤ
  dsProduto : String
  cdCarteira : Option ℤ
  dsCarteira : String
  nrProposta : Option ℤ
  nrPresta : Option ℤ
  tpPresta : String
  nrSeqPre : Option ℤ
  dtVctPre : String
  vlPresta : String
  vlMora : String
  vlMulta : String
  vlOutAcr : String
  vlIof : String
  vlDescon : String
  vlAtual : String
  idSituac : String
  idSitVen : String
deriving DecidableEq, Repr

/-- `IError`: a rejection — reason string plus the original raw record. -/
structure IError where
  error : String
  data : ICSVData
deriving DecidableEq, Repr

/-- `validateInstallments`:
`parseFloat(vlTotal) / parseInt(qtPrestacoes) === parseFloat(vlPresta)`.
A failed parse is `NaN`, and `NaN === x` is false.  Division by a zero
count yields `±Infinity` (or `NaN`), never equal to a finite parsed
decimal, so it is modelled as `false`. -/
def validateInstallments (data : ICSVData) : Bool :=
  match parseFloatQ data.vlTotal, parseIntZ data.qtPrestacoes, parseFloatQ data.vlPresta with
  | some t, some q, some p => if q = 0 then false else decide (t / (q : ℚ) = p)
  | _, _, _ => false

/-! ## Currency formatting

`formatCurrency` calls the platform builtin
`Intl.NumberFormat('pt-BR', {style: 'currency', currency: 'BRL',
minimumFractionDigits: 2, maximumFractionDigits: 2}).format(parseFloat(value))`.
Modelled from the spec: a pt-BR BRL currency string — `R$`, a no-break
space, the integer part with `.` as thousands separator, `,`, then exactly
two fraction digits; rounding is half-away-from-zero on the exact rational;
`format(NaN)` renders `R$ NaN`. -/

/-- The character of a digit value below 10. -/
def digitChar (n : Nat) : Char := Char.ofNat (48 + n)

/-- Decimal digit characters, least significant first; structural recursion
on a fuel argument so the kernel can evaluate it. -/
def natDigitsRevAux (fuel : Nat) (n : Nat) : List Char :=
  match fuel with
  | 0 => []
  | fuel' + 1 =>
    if n < 10 then [digitChar n]
    else digitChar (n % 10) :: natDigitsRevAux fuel' (n / 10)

/-- Decimal digit characters of `n`, least significant first. -/
def natDigitsRev (n : Nat) : List Char := natDigitsRevAux (n + 1) n

/-- Insert the pt-BR thousands separator every three digits, on a
least-significant-first digit list. -/
def group3Rev : List Char → List Char
  | a :: b :: c :: d :: rest => a :: b :: c :: '.' :: group3Rev (d :: rest)
  | l => l

/-- Integer part of a BRL amount with thousands separators. -/
def groupedNat (n : Nat) : List Char :=
  (group3Rev (natDigitsRev n)).reverse

/-- Exactly two digit characters for a cents value below 100. -/
def twoDigitChars (n : Nat) : List Char :=
  [digitChar (n / 10), digitChar (n % 10)]

/-- Round half away from zero (the `Intl` default `halfExpand` mode). -/
def roundHalfExpand (q : ℚ) : ℤ :=
  if q < 0 then -⌊(1 / 2 : ℚ) - q⌋ else ⌊q + 1 / 2⌋

/-- Digits of a nonnegative cents amount: integer part grouped by `.`,
a `,`, then exactly two fraction digits. -/
def centsBody (cents : Nat) : String :=
  String.mk (groupedNat (cents / 100) ++ ',' :: twoDigitChars (cents % 100))

/-- `formatCurrency` — see the section comment; ` ` is the no-break
space `Intl` places after `R$`. -/
def formatCurrency (value : String) : String :=
  match parseFloatQ value with
  | none => "R$ NaN"
  | some q =>
    let cents := roundHalfExpand (q * 100)
    if cents < 0 then "-R$ " ++ centsBody cents.natAbs
    else "R$ " ++ centsBody cents.natAbs

/-! ## The processing state and `proccess` -/

/-- The mutable accumulator fields of `CsvDataProcessor`. -/
structure ProcState where
  success_results : List IData
  error_results : List IError
  count : Nat
deriving DecidableEq, Repr

/-- The state of a freshly constructed processor. -/
def initState : ProcState := ⟨[], [], 0⟩

/-- `resetData()`: clear both collections and zero the count. -/
def resetData (_st : ProcState) : ProcState := ⟨[], [], 0⟩

/-- The normalization applied to an accepted record (the object literal
pushed onto `success_results` in `proccess`). -/
def normalize (data : ICSVData) : IData where
  nrInst := parseIntZ data.nrInst
  nrAgencia := parseIntZ data.nrAgencia
  cdClient := parseIntZ data.cdClient
  nmClient := data.nmClient
  nrCpfCnpj := data.nrCpfCnpj
  nrContrato := parseIntZ data.nrContrato
  dtContrato := data.dtContrato
  qtPrestacoes := parseIntZ data.qtPrestacoes
  vlTotal := formatCurrency data.vlTotal
  cdProduto := parseIntZ data.cdProduto
  dsProduto := data.dsProduto
  cdCarteira := parseIntZ data.cdCarteira
  dsCarteira := data.dsCarteira
  nrProposta := parseIntZ data.nrProposta
  nrPresta := parseIntZ data.nrPresta
  tpPresta := data.tpPresta
  nrSeqPre := parseIntZ data.nrSeqPre
  dtVctPre := data.dtVctPre
  vlPresta := formatCurrency data.vlPresta
  vlMora := formatCurrency data.vlMora
  vlMulta := formatCurrency data.vlMulta
  vlOutAcr := formatCurrency data.vlOutAcr
  vlIof := formatCurrency data.vlIof
  vlDescon := formatCurrency data.vlDescon
  vlAtual := formatCurrency data.vlAtual
  idSituac := data.idSituac
  idSitVen := data.idSitVen

/-- `proccess(data)`: increment the count; reject with the first failing
check's reason (format gate on the stripped digit count, then the checksum
branch chosen by the *original* string length, then installment
consistency); otherwise push the normalized record. -/
def proccess (data : ICSVData) (st : ProcState) : ProcState :=
  let st := { st with count := st.count + 1 }
  if ¬ ((stripNonDigits data.nrCpfCnpj).length = 11 ∨
        (stripNonDigits data.nrCpfCnpj).length = 14) then
    { st with error_results := st.error_results ++ [⟨"Invalid CPF or CNPJ", data⟩] }
  else if data.nrCpfCnpj.length = 11 ∧ ¬ validateCPF data.nrCpfCnpj then
    { st with error_results := st.error_results ++ [⟨"Invalid CPF", data⟩] }
  else if data.nrCpfCnpj.length = 14 ∧ ¬ validateCNPJ data.nrCpfCnpj then
    { st with error_results := st.error_results ++ [⟨"Invalid CNPJ", data⟩] }
  else if ¬ validateInstallments data then
    { st with error_results := st.error_results ++ [⟨"Invalid Installments", data⟩] }
  else
    { st with success_results := st.success_results ++ [normalize data] }

/-- One flushed batch: the rejected and accepted collections handed to the
sink (the `console.log` calls in `proccessBatch`). -/
abbrev Batch := List IError × List IData

/-- `proccessBatch()`: hand the collections to the sink, then `resetData()`. -/
def proccessBatch (st : ProcState) : ProcState × Batch :=
  (resetData st, (st.error_results, st.success_results))

/-- The `data`-event loop of `getCsvData`: process each row, and flush
whenever the count has reached the batch size.  Returns the final state and
the list of flushed batches, in order. -/
def runData (batchSize : Nat) : List ICSVData → ProcState → ProcState × List Batch
  | [], st => (st, [])
  | d :: rest, st =>
    let st1 := proccess d st
    if batchSize ≤ st1.count then
      let fb := proccessBatch st1
      let rec' := runData batchSize rest fb.1
      (rec'.1, fb.2 :: rec'.2)
    else
      runData batchSize rest st1

/-- `getCsvData` on a finite row source, starting from the fresh state
(`run()` calls `resetData()` first): the data-event loop followed by the
unconditional flush on the `end` event. -/
def getCsvData (batchSize : Nat) (rows : List ICSVData) : ProcState × List Batch :=
  let lp := runData batchSize rows initState
  let fb := proccessBatch lp.1
  (fb.1, lp.2 ++ [fb.2])

/-- Process a whole list of rows without any flushing (the accumulated
effect of consecutive `proccess` calls). -/
def processAll (rows : List ICSVData) (st : ProcState) : ProcState :=
  rows.foldl (fun s d => proccess d s) st

/-- A display string has exactly two fraction digits: its last three
characters are a comma and two digits, and no other comma occurs. -/
def twoFracDigits (s : String) : Bool :=
  match s.data.reverse with
  | b :: a :: ',' :: rest => a.isDigit && b.isDigit && rest.all (fun c => c != ',')
  | _ => false

/-! ## Sample rows used in concrete checks -/

/-- A row whose every field is the given taxpayer id, total, count and
per-installment strings, all other fields empty. -/
def mkRow (id total qt presta : String) : ICSVData :=
  ⟨"", "", "", "", id, "", "", qt, total, "", "", "", "", "", "", "", "", "",
    presta, "", "", "", "", "", "", "", ""⟩

/-- A row with every field empty. -/
def emptyRow : ICSVData := mkRow "" "" "" ""

/-- A row that is accepted although its late-fee field `vlMora` is not a
decimal numeral at all. -/
def rowMoraNaN : ICSVData :=
  { mkRow "11144477735" "1000.00" "10" "100.00" with vlMora := "abc" }


/-! ## Case analysis of `proccess` -/

/-- Every `proccess` call increments the count and appends exactly one
outcome: either the normalized record to `success_results`, or a single
rejection — with one of the four reason strings and the unmodified input
record — to `error_results`. -/
theorem proccess_cases (d : ICSVData) (st : ProcState) :
    proccess d st =
      ⟨st.success_results ++ [normalize d], st.error_results, st.count + 1⟩ ∨
    ∃ r, (r = "Invalid CPF or CNPJ" ∨ r = "Invalid CPF" ∨ r = "Invalid CNPJ" ∨
          r = "Invalid Installments") ∧
      proccess d st =
        ⟨st.success_results, st.error_results ++ [⟨r, d⟩], st.count + 1⟩ := by
  unfold proccess
  split_ifs with h1 h2 h3 h4
  all_goals first
    | exact Or.inl rfl
    | exact Or.inr ⟨"Invalid CPF or CNPJ", by simp, rfl⟩
    | exact Or.inr ⟨"Invalid CPF", by simp, rfl⟩
    | exact Or.inr ⟨"Invalid CNPJ", by simp, rfl⟩
    | exact Or.inr ⟨"Invalid Installments", by simp, rfl⟩

theorem proccess_count (d : ICSVData) (st : ProcState) :
    (proccess d st).count = st.count + 1 := by
  rcases proccess_cases d st with h | ⟨r, _, h⟩ <;> rw [h]

theorem processAll_count (rows : List ICSVData) :
    ∀ st : ProcState, (processAll rows st).count = st.count + rows.length := by
  induction rows with
  | nil => intro st; simp [processAll]
  | cons d rest ih =>
    intro st
    have h := ih (proccess d st)
    simp only [processAll, List.foldl_cons] at h ⊢
    rw [h, proccess_count]
    simp [Nat.add_assoc, Nat.add_comm 1 rest.length]

theorem processAll_inv (rows : List ICSVData) :
    ∀ st : ProcState,
      st.count = st.success_results.length + st.error_results.length →
      (processAll rows st).count =
        (processAll rows st).success_results.length +
          (processAll rows st).error_results.length := by
  induction rows with
  | nil => intro st h; simpa [processAll] using h
  | cons d rest ih =>
    intro st h
    simp only [processAll, List.foldl_cons] at ih ⊢
    apply ih
    rcases proccess_cases d st with hc | ⟨r, _, hc⟩ <;> rw [hc] <;> simp <;> omega

theorem proccess_formatErr (d : ICSVData) (st : ProcState)
    (h : ¬ ((stripNonDigits d.nrCpfCnpj).length = 11 ∨
            (stripNonDigits d.nrCpfCnpj).length = 14)) :
    proccess d st =
      ⟨st.success_results, st.error_results ++ [⟨"Invalid CPF or CNPJ", d⟩],
        st.count + 1⟩ := by
  unfold proccess
  split_ifs <;> first | rfl | tauto

theorem proccess_cpfErr (d : ICSVData) (st : ProcState)
    (hgate : (stripNonDigits d.nrCpfCnpj).length = 11 ∨
             (stripNonDigits d.nrCpfCnpj).length = 14)
    (h11 : d.nrCpfCnpj.length = 11) (hcpf : ¬ validateCPF d.nrCpfCnpj) :
    proccess d st =
      ⟨st.success_results, st.error_results ++ [⟨"Invalid CPF", d⟩], st.count + 1⟩ := by
  unfold proccess
  split_ifs <;> first | rfl | tauto

theorem proccess_cnpjErr (d : ICSVData) (st : ProcState)
    (hgate : (stripNonDigits d.nrCpfCnpj).length = 11 ∨
             (stripNonDigits d.nrCpfCnpj).length = 14)
    (h14 : d.nrCpfCnpj.length = 14) (hcnpj : ¬ validateCNPJ d.nrCpfCnpj) :
    proccess d st =
      ⟨st.success_results, st.error_results ++ [⟨"Invalid CNPJ", d⟩], st.count + 1⟩ := by
  have h11 : ¬ d.nrCpfCnpj.length = 11 := by omega
  unfold proccess
  split_ifs <;> first | rfl | tauto

theorem proccess_instErr (d : ICSVData) (st : ProcState)
    (hgate : (stripNonDigits d.nrCpfCnpj).length = 11 ∨
             (stripNonDigits d.nrCpfCnpj).length = 14)
    (hno11 : ¬ (d.nrCpfCnpj.length = 11 ∧ ¬ validateCPF d.nrCpfCnpj))
    (hno14 : ¬ (d.nrCpfCnpj.length = 14 ∧ ¬ validateCNPJ d.nrCpfCnpj))
    (hinst : ¬ validateInstallments d) :
    proccess d st =
      ⟨st.success_results, st.error_results ++ [⟨"Invalid Installments", d⟩],
        st.count + 1⟩ := by
  unfold proccess
  split_ifs <;> first | rfl | tauto

theorem proccess_accept (d : ICSVData) (st : ProcState)
    (hgate : (stripNonDigits d.nrCpfCnpj).length = 11 ∨
             (stripNonDigits d.nrCpfCnpj).length = 14)
    (hno11 : ¬ (d.nrCpfCnpj.length = 11 ∧ ¬ validateCPF d.nrCpfCnpj))
    (hno14 : ¬ (d.nrCpfCnpj.length = 14 ∧ ¬ validateCNPJ d.nrCpfCnpj))
    (hinst : validateInstallments d) :
    proccess d st =
      ⟨st.success_results ++ [normalize d], st.error_results, st.count + 1⟩ := by
  unfold proccess
  split_ifs <;> first | rfl | tauto

/-! ## Claim theorems -/

/-- C10: `resetData` is idempotent — from any state, one call and two calls
in a row both leave the collections empty and the count at zero. -/
theorem resetData_idempotent (st : ProcState) :
    resetData (resetData st) = resetData st ∧
    (resetData st).success_results = [] ∧
    (resetData st).error_results = [] ∧
    (resetData st).count = 0 :=
  ⟨rfl, rfl, rfl, rfl⟩

/-- C8: `proccess` is a total function on records; it records at most one
outcome — either the normalized record, or a single rejection whose reason
is one of the four fixed strings, paired with the original unmodified
record — and always increments the count by one. -/
theorem single_rejection_reason (d : ICSVData) (st : ProcState) :
    (proccess d st).count = st.count + 1 ∧
    (((proccess d st).success_results = st.success_results ++ [normalize d] ∧
      (proccess d st).error_results = st.error_results) ∨
     (∃ e : IError, e.data = d ∧
        (e.error = "Invalid CPF or CNPJ" ∨ e.error = "Invalid CPF" ∨
         e.error = "Invalid CNPJ" ∨ e.error = "Invalid Installments") ∧
        (proccess d st).error_results = st.error_results ++ [e] ∧
        (proccess d st).success_results = st.success_results)) := by
  rcases proccess_cases d st with h | ⟨r, hr, h⟩
  · rw [h]
    exact ⟨rfl, Or.inl ⟨rfl, rfl⟩⟩
  · rw [h]
    exact ⟨rfl, Or.inr ⟨⟨r, d⟩, rfl, hr, rfl, rfl⟩⟩

/-- C6: the invariant `count = success_results.length + error_results.length`
holds initially and after `resetData`, and `proccess` increments the count by
one while appending exactly one outcome to exactly one collection, so it
preserves the invariant. -/
theorem count_invariant :
    initState.count =
      initState.success_results.length + initState.error_results.length ∧
    (∀ st : ProcState,
      (resetData st).count =
        (resetData st).success_results.length +
          (resetData st).error_results.length) ∧
    (∀ (d : ICSVData) (st : ProcState),
      (proccess d st).count = st.count + 1 ∧
      (proccess d st).success_results.length +
          (proccess d st).error_results.length =
        st.success_results.length + st.error_results.length + 1 ∧
      (st.count = st.success_results.length + st.error_results.length →
        (proccess d st).count =
          (proccess d st).success_results.length +
            (proccess d st).error_results.length)) := by
  refine ⟨rfl, fun st => rfl, fun d st => ?_⟩
  rcases proccess_cases d st with h | ⟨r, _, h⟩ <;>
    · rw [h]
      refine ⟨rfl, by simp; omega, fun hc => by simp [hc]; omega⟩

/-- Witness for C6 at a concrete record and the initial state. -/
theorem count_invariant_witness :
    (proccess emptyRow initState).count =
      (proccess emptyRow initState).success_results.length +
        (proccess emptyRow initState).error_results.length :=
  (count_invariant.2.2 emptyRow initState).2.2 (by decide)

/-! ## Concrete parse evaluations

The rational arithmetic of `ℚ` does not reduce in the kernel, so concrete
values of `parseFloatQ` / `parseIntZ` are established by reducing the
character-level part definitionally and normalizing the remaining
arithmetic. -/

theorem parseFloatQ_1000 : parseFloatQ "1000.00" = some 1000 := by
  have h : parseFloatQ "1000.00" =
      some (((1 : ℤ) : ℚ) * (((1000 : ℕ) : ℚ) + ((0 : ℕ) : ℚ) / (10 : ℚ) ^ 2)) := rfl
  rw [h]; norm_num

theorem parseFloatQ_100 : parseFloatQ "100.00" = some 100 := by
  have h : parseFloatQ "100.00" =
      some (((1 : ℤ) : ℚ) * (((100 : ℕ) : ℚ) + ((0 : ℕ) : ℚ) / (10 : ℚ) ^ 2)) := rfl
  rw [h]; norm_num

theorem parseFloatQ_99 : parseFloatQ "99.00" = some 99 := by
  have h : parseFloatQ "99.00" =
      some (((1 : ℤ) : ℚ) * (((99 : ℕ) : ℚ) + ((0 : ℕ) : ℚ) / (10 : ℚ) ^ 2)) := rfl
  rw [h]; norm_num

theorem parseIntZ_10 : parseIntZ "10" = some 10 := by
  have h : parseIntZ "10" = some ((1 : ℤ) * ((10 : ℕ) : ℤ)) := rfl
  rw [h]; norm_num

theorem installments_fields_ok (d : ICSVData) (ht : d.vlTotal = "1000.00")
    (hq : d.qtPrestacoes = "10") (hp : d.vlPresta = "100.00") :
    validateInstallments d = true := by
  unfold validateInstallments
  rw [ht, hq, hp, parseFloatQ_1000, parseIntZ_10, parseFloatQ_100]
  norm_num

theorem installments_1000_10_100 (id : String) :
    validateInstallments (mkRow id "1000.00" "10" "100.00") = true :=
  installments_fields_ok _ rfl rfl rfl

theorem installments_1000_10_99 (id : String) :
    validateInstallments (mkRow id "1000.00" "10" "99.00") = false := by
  have ht : (mkRow id "1000.00" "10" "99.00").vlTotal = "1000.00" := rfl
  have hq : (mkRow id "1000.00" "10" "99.00").qtPrestacoes = "10" := rfl
  have hp : (mkRow id "1000.00" "10" "99.00").vlPresta = "99.00" := rfl
  unfold validateInstallments
  rw [ht, hq, hp, parseFloatQ_1000, parseIntZ_10, parseFloatQ_99]
  norm_num

/-- C3: once the format gate has passed, the CPF checksum branch fires
exactly when the *original, unstripped* field has length 11 and the CPF
checksum fails (reason "Invalid CPF"), and the CNPJ branch exactly when the
original field has length 14 and the CNPJ checksum fails (reason
"Invalid CNPJ"). -/
theorem checksum_branch_on_raw_length (d : ICSVData) (st : ProcState)
    (hgate : (stripNonDigits d.nrCpfCnpj).length = 11 ∨
             (stripNonDigits d.nrCpfCnpj).length = 14) :
    ((proccess d st).error_results =
        st.error_results ++ [⟨"Invalid CPF", d⟩] ↔
      d.nrCpfCnpj.length = 11 ∧ validateCPF d.nrCpfCnpj = false) ∧
    ((proccess d st).error_results =
        st.error_results ++ [⟨"Invalid CNPJ", d⟩] ↔
      d.nrCpfCnpj.length = 14 ∧ validateCNPJ d.nrCpfCnpj = false) := by
  by_cases h11 : d.nrCpfCnpj.length = 11 ∧ ¬ validateCPF d.nrCpfCnpj
  · rw [proccess_cpfErr d st hgate h11.1 h11.2]
    have hne14 : ¬ d.nrCpfCnpj.length = 14 := by omega
    constructor
    · simp only [true_iff, List.append_cancel_left_eq]
      exact ⟨h11.1, by simpa using h11.2⟩
    · constructor
      · intro h
        have := List.append_cancel_left h
        simp [IError.mk.injEq] at this
      · rintro ⟨h14, -⟩
        exact absurd h14 hne14
  · by_cases h14 : d.nrCpfCnpj.length = 14 ∧ ¬ validateCNPJ d.nrCpfCnpj
    · rw [proccess_cnpjErr d st hgate h14.1 h14.2]
      have hne11 : ¬ d.nrCpfCnpj.length = 11 := by omega
      constructor
      · constructor
        · intro h
          have := List.append_cancel_left h
          simp [IError.mk.injEq] at this
        · rintro ⟨hl, -⟩
          exact absurd hl hne11
      · simp only [true_iff, List.append_cancel_left_eq]
        exact ⟨h14.1, by simpa using h14.2⟩
    · have hiff11 : ¬ (d.nrCpfCnpj.length = 11 ∧ validateCPF d.nrCpfCnpj = false) := by
        simpa using h11
      have hiff14 : ¬ (d.nrCpfCnpj.length = 14 ∧ validateCNPJ d.nrCpfCnpj = false) := by
        simpa using h14
      by_cases hinst : validateInstallments d
      · rw [proccess_accept d st hgate h11 h14 hinst]
        refine ⟨⟨fun h => ?_, fun h => absurd h hiff11⟩,
                ⟨fun h => ?_, fun h => absurd h hiff14⟩⟩ <;> simp at h
      · rw [proccess_instErr d st hgate h11 h14 hinst]
        constructor
        · constructor
          · intro h
            have := List.append_cancel_left h
            simp [IError.mk.injEq] at this
          · intro h
            exact absurd h hiff11
        · constructor
          · intro h
            have := List.append_cancel_left h
            simp [IError.mk.injEq] at this
          · intro h
            exact absurd h hiff14

/-- Witness for C3: a record whose taxpayer-id field is eleven identical
digits passes the format gate, takes the CPF branch and is rejected with
reason "Invalid CPF". -/
theorem checksum_branch_on_raw_length_witness :
    (proccess (mkRow "11111111111" "" "" "") initState).error_results =
      [⟨"Invalid CPF", mkRow "11111111111" "" "" ""⟩] := by
  have h := (checksum_branch_on_raw_length (mkRow "11111111111" "" "" "")
    initState (by decide)).1.mpr ⟨by decide, by decide⟩
  simpa using h

/-- C4: a record whose taxpayer id strips to 11 or 14 digits but whose
original string length is neither 11 nor 14 runs neither checksum: it is
accepted exactly when the installment check passes, and otherwise rejected
with reason "Invalid Installments". -/
theorem punctuated_id_skips_checksum (d : ICSVData) (st : ProcState)
    (hgate : (stripNonDigits d.nrCpfCnpj).length = 11 ∨
             (stripNonDigits d.nrCpfCnpj).length = 14)
    (h11 : d.nrCpfCnpj.length ≠ 11) (h14 : d.nrCpfCnpj.length ≠ 14) :
    ((proccess d st).success_results = st.success_results ++ [normalize d] ↔
      validateInstallments d = true) ∧
    (validateInstallments d = false →
      proccess d st =
        ⟨st.success_results, st.error_results ++ [⟨"Invalid Installments", d⟩],
          st.count + 1⟩) := by
  have hno11 : ¬ (d.nrCpfCnpj.length = 11 ∧ ¬ validateCPF d.nrCpfCnpj) :=
    fun h => h11 h.1
  have hno14 : ¬ (d.nrCpfCnpj.length = 14 ∧ ¬ validateCNPJ d.nrCpfCnpj) :=
    fun h => h14 h.1
  by_cases hinst : validateInstallments d
  · rw [proccess_accept d st hgate hno11 hno14 hinst]
    exact ⟨by simpa using hinst, fun hf => by simp [hf] at hinst⟩
  · rw [proccess_instErr d st hgate hno11 hno14 hinst]
    constructor
    · simp only [Bool.not_eq_true] at hinst
      simp [hinst]
    · intro _
      rfl

/-- Witness for C4: `1-1111111111` has length 12 but strips to eleven
identical digits — a string `validateCPF` rejects — yet the record is
accepted because the installment check passes. -/
theorem punctuated_id_skips_checksum_witness :
    validateCPF "1-1111111111" = false ∧
    (proccess (mkRow "1-1111111111" "1000.00" "10" "100.00") initState).success_results =
      [normalize (mkRow "1-1111111111" "1000.00" "10" "100.00")] := by
  constructor
  · decide
  · have h := (punctuated_id_skips_checksum
      (mkRow "1-1111111111" "1000.00" "10" "100.00") initState
      (by decide) (by decide) (by decide)).1.mpr
      (installments_1000_10_100 "1-1111111111")
    simpa using h

/-- C5: the installment check accepts exactly when all three parses succeed
and the parsed total divided by the parsed count is *exactly* equal to the
parsed per-installment value (division by a zero count never accepts);
`1000.00 / 10 = 100.00` is accepted, `99.00` is rejected, and `proccess`
records the "Invalid Installments" reason for the rejected row. -/
theorem installments_exact_division :
    (∀ d : ICSVData,
      validateInstallments d = true ↔
        ∃ (t : ℚ) (q : ℤ) (p : ℚ),
          parseFloatQ d.vlTotal = some t ∧
          parseIntZ d.qtPrestacoes = some q ∧
          parseFloatQ d.vlPresta = some p ∧
          q ≠ 0 ∧ t / (q : ℚ) = p) ∧
    validateInstallments (mkRow "11144477735" "1000.00" "10" "100.00") = true ∧
    validateInstallments (mkRow "11144477735" "1000.00" "10" "99.00") = false ∧
    (∀ st : ProcState,
      (proccess (mkRow "11144477735" "1000.00" "10" "99.00") st).error_results =
        st.error_results ++
          [⟨"Invalid Installments", mkRow "11144477735" "1000.00" "10" "99.00"⟩]) := by
  refine ⟨fun d => ?_, installments_1000_10_100 _, installments_1000_10_99 _, fun st => ?_⟩
  · unfold validateInstallments
    rcases ht : parseFloatQ d.vlTotal with _ | t <;>
      rcases hq : parseIntZ d.qtPrestacoes with _ | q <;>
        rcases hp : parseFloatQ d.vlPresta with _ | p <;>
          simp only [ht, hq, hp]
    · simp
    · simp
    · simp
    · simp
    · simp
    · simp
    · simp
    · constructor
      · intro h
        split_ifs at h with hz
        exact ⟨t, q, p, rfl, rfl, rfl, hz, of_decide_eq_true h⟩
      · rintro ⟨t', q', p', ht', hq', hp', hz, he⟩
        obtain rfl : t = t' := by simpa using ht'
        obtain rfl : q = q' := by simpa using hq'
        obtain rfl : p = p' := by simpa using hp'
        rw [if_neg hz]
        exact decide_eq_true he
  · have hcpf : validateCPF "11144477735" = true := by decide
    have hno11 : ¬ ((mkRow "11144477735" "1000.00" "10" "99.00").nrCpfCnpj.length = 11 ∧
        ¬ validateCPF (mkRow "11144477735" "1000.00" "10" "99.00").nrCpfCnpj) := by
      rintro ⟨-, hno⟩
      exact hno (by decide)
    have hno14 : ¬ ((mkRow "11144477735" "1000.00" "10" "99.00").nrCpfCnpj.length = 14 ∧
        ¬ validateCNPJ (mkRow "11144477735" "1000.00" "10" "99.00").nrCpfCnpj) := by
      rintro ⟨hl, -⟩
      revert hl
      decide
    have hinst : ¬ validateInstallments (mkRow "11144477735" "1000.00" "10" "99.00") := by
      simp [installments_1000_10_99]
    rw [proccess_instErr _ st (by decide) hno11 hno14 hinst]

/-! ## The driving loop (C7) -/

theorem runData_no_flush (bs : Nat) :
    ∀ (l : List ICSVData) (st : ProcState), st.count + l.length < bs →
      runData bs l st = (processAll l st, []) := by
  intro l
  induction l with
  | nil => intro st _; rfl
  | cons d rest ih =>
    intro st h
    have hc : (proccess d st).count = st.count + 1 := proccess_count d st
    have hnb : ¬ bs ≤ (proccess d st).count := by
      rw [hc]; simp only [List.length_cons] at h; omega
    simp only [runData, processAll, List.foldl_cons]
    rw [if_neg hnb]
    exact ih (proccess d st) (by rw [hc]; simp only [List.length_cons] at h; omega)

theorem runData_single_flush (bs : Nat) :
    ∀ (l : List ICSVData) (st : ProcState), l ≠ [] → st.count + l.length = bs →
      runData bs l st =
        (⟨[], [], 0⟩,
          [((processAll l st).error_results, (processAll l st).success_results)]) := by
  intro l
  induction l with
  | nil => intro st h; exact absurd rfl h
  | cons d rest ih =>
    intro st _ hlen
    have hc : (proccess d st).count = st.count + 1 := proccess_count d st
    cases rest with
    | nil =>
      have hb : bs ≤ (proccess d st).count := by
        rw [hc]; simp only [List.length_cons, List.length_nil] at hlen; omega
      simp only [runData, processAll, List.foldl_cons, List.foldl_nil]
      rw [if_pos hb]
      rfl
    | cons d2 rest2 =>
      have hnb : ¬ bs ≤ (proccess d st).count := by
        rw [hc]; simp only [List.length_cons] at hlen; omega
      simp only [runData, processAll, List.foldl_cons] at ih ⊢
      rw [if_neg hnb]
      exact ih (proccess d st) (by simp)
        (by rw [hc]; simp only [List.length_cons] at hlen ⊢; omega)

/-- C7: with a positive batch size, submitting exactly `batchSize` records
triggers exactly one flush, after which the collections are empty and the
count is zero; submitting `batchSize - 1` records triggers no flush in the
loop, and the stream-end flush then hands over exactly one partial batch
holding all `batchSize - 1` outcomes; every flush leaves the reset state. -/
theorem batch_boundary_flush (bs : Nat) (hbs : 1 ≤ bs)
    (l₁ l₂ : List ICSVData) (h₁ : l₁.length = bs) (h₂ : l₂.length = bs - 1) :
    runData bs l₁ initState =
      (initState,
        [((processAll l₁ initState).error_results,
          (processAll l₁ initState).success_results)]) ∧
    (runData bs l₂ initState).2 = [] ∧
    (getCsvData bs l₂).2 =
      [((processAll l₂ initState).error_results,
        (processAll l₂ initState).success_results)] ∧
    (processAll l₂ initState).error_results.length +
        (processAll l₂ initState).success_results.length = bs - 1 ∧
    (∀ st : ProcState,
      (proccessBatch st).1.success_results = [] ∧
      (proccessBatch st).1.error_results = [] ∧
      (proccessBatch st).1.count = 0) := by
  have hne : l₁ ≠ [] := by
    intro h
    rw [h] at h₁
    simp at h₁
    omega
  have h1 := runData_single_flush bs l₁ initState hne (by simpa [initState] using h₁)
  have h2 := runData_no_flush bs l₂ initState (by simp [initState]; omega)
  have hcnt : (processAll l₂ initState).count = bs - 1 := by
    rw [processAll_count]; simpa [initState] using h₂
  have hinv : (processAll l₂ initState).count =
      (processAll l₂ initState).success_results.length +
        (processAll l₂ initState).error_results.length :=
    processAll_inv l₂ initState rfl
  refine ⟨h1, by rw [h2], ?_, by omega, fun st => ⟨rfl, rfl, rfl⟩⟩
  unfold getCsvData
  rw [h2]
  rfl

/-- Witness for C7 at batch size 1: one record triggers exactly one loop
flush ending in the reset state, and zero records followed by stream end
flush exactly one (empty) batch. -/
theorem batch_boundary_flush_witness :
    runData 1 [emptyRow] initState =
      (initState,
        [((processAll [emptyRow] initState).error_results,
          (processAll [emptyRow] initState).success_results)]) ∧
    (getCsvData 1 ([] : List ICSVData)).2 =
      [((processAll ([] : List ICSVData) initState).error_results,
        (processAll ([] : List ICSVData) initState).success_results)] :=
  ⟨(batch_boundary_flush 1 (by decide) [emptyRow] [] (by decide) (by decide)).1,
   (batch_boundary_flush 1 (by decide) [emptyRow] [] (by decide) (by decide)).2.2.1⟩

/-! ## Source checksum code vs. specification rule (C1, C2) -/

theorem digitVal_inj (c d : Char) (hc : c.isDigit = true) (hd : d.isDigit = true)
    (h : digitVal c = digitVal d) : c = d := by
  simp [Char.isDigit] at hc hd
  have hc1 := BitVec.le_def.mp (UInt32.le_def.mp hc.1)
  have hc2 := BitVec.le_def.mp (UInt32.le_def.mp hc.2)
  have hd1 := BitVec.le_def.mp (UInt32.le_def.mp hd.1)
  have hd2 := BitVec.le_def.mp (UInt32.le_def.mp hd.2)
  have e48 : (UInt32.toBitVec 48).toNat = 48 := rfl
  have e57 : (UInt32.toBitVec 57).toNat = 57 := rfl
  have ec : c.val.toBitVec.toNat = c.toNat := rfl
  have ed : d.val.toBitVec.toNat = d.toNat := rfl
  unfold digitVal at h
  have hv : c.val.toBitVec.toNat = d.val.toBitVec.toNat := by omega
  have hval : c.val = d.val := by
    apply UInt32.ext
    simpa [UInt32.toNat] using hv
  exact Char.eq_of_val_eq hval

theorem foldl_zip_digitVal (cs : List Char) :
    ∀ (ws : List Nat) (a : Nat),
      (List.zip cs ws).foldl (fun acc p => acc + digitVal p.1 * p.2) a =
        a + (List.zipWith (fun x y => x * y) (cs.map digitVal) ws).sum := by
  induction cs with
  | nil => intro ws a; simp
  | cons c rest ih =>
    intro ws a
    cases ws with
    | nil => simp
    | cons w ws' =>
      simp only [List.zip_cons_cons, List.foldl_cons, List.map_cons,
        List.zipWith_cons_cons, List.sum_cons]
      rw [ih]
      ring

theorem calcularDigito_eq_spec (cs : List Char) (ws : List Nat) :
    calcularDigito cs ws = specCheckDigit (cs.map digitVal) ws := by
  simp only [calcularDigito, specCheckDigit]
  rw [foldl_zip_digitVal]
  simp

theorem getD_map_digitVal :
    ∀ (l : List Char) (i : Nat), i < l.length →
      (l.map digitVal).getD i 0 = digitVal (l.getD i ' ') := by
  intro l
  induction l with
  | nil => intro i h; simp at h
  | cons c rest ih =>
    intro i h
    cases i with
    | zero => rfl
    | succ n => simpa using ih n (by simpa using h)

theorem allSameChars_iff (l : List Char) (hl : ∀ c ∈ l, c.isDigit = true) :
    allSameChars l = true ↔
      ∀ x ∈ l.map digitVal, x = (l.map digitVal).headD 0 := by
  cases l with
  | nil => simp [allSameChars]
  | cons c rest =>
    simp only [allSameChars, List.all_eq_true, List.map_cons, List.headD_cons,
      List.mem_cons]
    constructor
    · rintro h x (hx | hx)
      · exact hx
      · obtain ⟨y, hy, rfl⟩ := List.mem_map.mp hx
        have hyc : (y == c) = true := h y hy
        rw [beq_iff_eq] at hyc
        rw [hyc]
    · intro h y hy
      have hxy := h (digitVal y) (Or.inr (List.mem_map_of_mem _ hy))
      have hyc : y = c :=
        digitVal_inj y c (hl y (List.mem_cons_of_mem _ hy))
          (hl c (List.mem_cons_self _ _)) hxy
      exact beq_iff_eq.mpr hyc

/-- Both checksum validators share one shape; this equivalence relates that
shape to the specification's digit-value rule. -/
theorem checkShape_iff (dL : List Char) (hdig : ∀ c ∈ dL, c.isDigit = true)
    (n a b i j : Nat) (w1 w2 : List Nat) (hi : i < n) (hj : j < n) :
    ((if dL.length ≠ n ∨ allSameChars dL then false
      else if digitVal (dL.getD i ' ') ≠ calcularDigito (dL.take a) w1 then false
      else digitVal (dL.getD j ' ') == calcularDigito (dL.take b) w2) = true ↔
     ((dL.map digitVal).length = n ∧
      ¬ (∀ x ∈ dL.map digitVal, x = (dL.map digitVal).headD 0) ∧
      (dL.map digitVal).getD i 0 =
        specCheckDigit ((dL.map digitVal).take a) w1 ∧
      (dL.map digitVal).getD j 0 =
        specCheckDigit ((dL.map digitVal).take b) w2)) := by
  rw [List.length_map]
  by_cases hlen : dL.length = n
  · by_cases hsame : allSameChars dL = true
    · rw [if_pos (Or.inr hsame)]
      simp only [Bool.false_eq_true, false_iff]
      rintro ⟨-, hnall, -⟩
      exact hnall ((allSameChars_iff dL hdig).mp hsame)
    · have hcond : ¬ (dL.length ≠ n ∨ allSameChars dL = true) := by
        push_neg
        exact ⟨hlen, by simpa using hsame⟩
      rw [if_neg (by simpa using hcond)]
      have e1 : calcularDigito (dL.take a) w1 =
          specCheckDigit ((dL.map digitVal).take a) w1 := by
        rw [calcularDigito_eq_spec, List.map_take]
      have e2 : calcularDigito (dL.take b) w2 =
          specCheckDigit ((dL.map digitVal).take b) w2 := by
        rw [calcularDigito_eq_spec, List.map_take]
      have g1 : (dL.map digitVal).getD i 0 = digitVal (dL.getD i ' ') :=
        getD_map_digitVal dL i (by omega)
      have g2 : (dL.map digitVal).getD j 0 = digitVal (dL.getD j ' ') :=
        getD_map_digitVal dL j (by omega)
      have hnall : ¬ (∀ x ∈ dL.map digitVal, x = (dL.map digitVal).headD 0) :=
        fun hall => hsame ((allSameChars_iff dL hdig).mpr hall)
      rw [g1, g2, e1, e2]
      by_cases h9 : digitVal (dL.getD i ' ') =
          specCheckDigit ((dL.map digitVal).take a) w1
      · rw [if_neg (by simpa using h9), beq_iff_eq]
        constructor
        · intro h10
          exact ⟨hlen, hnall, h9, h10⟩
        · rintro ⟨-, -, -, h10⟩
          exact h10
      · rw [if_pos (by simpa using h9)]
        simp only [Bool.false_eq_true, false_iff]
        rintro ⟨-, -, h9', -⟩
        exact h9 h9'
  · rw [if_pos (Or.inl hlen)]
    simp only [Bool.false_eq_true, false_iff]
    rintro ⟨hlen', -⟩
    exact hlen hlen'

theorem stripNonDigits_digits (s : String) :
    ∀ c ∈ stripNonDigits s, c.isDigit = true := by
  intro c hc
  exact (List.mem_filter.mp hc).2

/-- C1: `validateCPF` decides exactly the specification's 11-digit rule —
strip non-digits, require 11 digits, not all identical, and both weighted
check digits — and on the spec's concrete cases it accepts `11144477735`
and rejects `11111111111` as well as every final-digit alteration of the
valid id. -/
theorem cpf_checksum_correct :
    (∀ s : String, validateCPF s = true ↔ cpfSpec s) ∧
    validateCPF "11144477735" = true ∧
    validateCPF "11111111111" = false ∧
    (['0', '1', '2', '3', '4', '6', '7', '8', '9'].all
      (fun c => ! validateCPF (String.push "1114447773" c))) = true := by
  refine ⟨fun s => ?_, by decide, by decide, by decide⟩
  exact checkShape_iff (stripNonDigits s) (stripNonDigits_digits s)
    11 9 10 9 10 [10, 9, 8, 7, 6, 5, 4, 3, 2] [11, 10, 9, 8, 7, 6, 5, 4, 3, 2]
    (by omega) (by omega)

/-- C2: `validateCNPJ` decides exactly the specification's 14-digit rule —
strip non-digits, require 14 digits, not all identical, and both weighted
check digits — and concretely it accepts `11444777000161` and rejects every
string of 14 identical digits. -/
theorem cnpj_checksum_correct :
    (∀ s : String, validateCNPJ s = true ↔ cnpjSpec s) ∧
    validateCNPJ "11444777000161" = true ∧
    (['0', '1', '2', '3', '4', '5', '6', '7', '8', '9'].all
      (fun c => ! validateCNPJ (String.mk (List.replicate 14 c)))) = true := by
  refine ⟨fun s => ?_, by decide, by decide⟩
  exact checkShape_iff (stripNonDigits s) (stripNonDigits_digits s)
    14 12 13 12 13 [5, 4, 3, 2, 9, 8, 7, 6, 5, 4, 3, 2]
    [6, 5, 4, 3, 2, 9, 8, 7, 6, 5, 4, 3, 2] (by omega) (by omega)

/-! ## Structure of the currency display string (C9) -/

theorem digitChar_isDigit (k : Nat) (h : k < 10) : (digitChar k).isDigit = true := by
  interval_cases k <;> decide

theorem natDigitsRevAux_digits :
    ∀ (fuel n : Nat), ∀ c ∈ natDigitsRevAux fuel n, c.isDigit = true := by
  intro fuel
  induction fuel with
  | zero => intro n c hc; simp [natDigitsRevAux] at hc
  | succ f ih =>
    intro n c hc
    simp only [natDigitsRevAux] at hc
    split_ifs at hc with h
    · simp only [List.mem_singleton] at hc
      rw [hc]
      exact digitChar_isDigit n h
    · rcases List.mem_cons.mp hc with hc | hc
      · rw [hc]
        exact digitChar_isDigit _ (Nat.mod_lt _ (by omega))
      · exact ih _ c hc

theorem group3Rev_mem :
    ∀ (l : List Char), ∀ c ∈ group3Rev l, c ∈ l ∨ c = '.' := by
  intro l
  induction l using group3Rev.induct with
  | case1 a b c' d rest ih =>
    intro c hc
    simp only [group3Rev, List.mem_cons] at hc ⊢
    rcases hc with h | h | h | h | h
    · exact Or.inl (Or.inl h)
    · exact Or.inl (Or.inr (Or.inl h))
    · exact Or.inl (Or.inr (Or.inr (Or.inl h)))
    · exact Or.inr h
    · rcases ih c h with h' | h'
      · simp only [List.mem_cons] at h'
        rcases h' with h' | h'
        · exact Or.inl (Or.inr (Or.inr (Or.inr (Or.inl h'))))
        · exact Or.inl (Or.inr (Or.inr (Or.inr (Or.inr h'))))
      · exact Or.inr h'
  | case2 l h =>
    intro c hc
    rw [group3Rev] at hc
    · exact Or.inl hc
    · exact h

theorem groupedNat_no_comma (n : Nat) : ∀ c ∈ groupedNat n, c ≠ ',' := by
  intro c hc
  rw [groupedNat, List.mem_reverse] at hc
  rcases group3Rev_mem _ c hc with h | h
  · have := natDigitsRevAux_digits _ _ c h
    intro hcomma
    rw [hcomma] at this
    simp at this
  · rw [h]
    decide

theorem twoFracDigits_prefix_centsBody (p : String)
    (hp : ∀ c ∈ p.data, c ≠ ',') (cents : Nat) :
    twoFracDigits (p ++ centsBody cents) = true := by
  have hm : cents % 100 < 100 := Nat.mod_lt _ (by omega)
  unfold twoFracDigits centsBody
  rw [String.data_append]
  simp only [String.mk, twoDigitChars, List.reverse_append, List.reverse_cons,
    List.reverse_nil, List.nil_append, List.cons_append, List.append_assoc]
  have h1 : (digitChar (cents % 100 / 10)).isDigit = true :=
    digitChar_isDigit _ (by omega)
  have h2 : (digitChar (cents % 100 % 10)).isDigit = true :=
    digitChar_isDigit _ (Nat.mod_lt _ (by omega))
  simp only [h1, h2, Bool.true_and]
  rw [List.all_eq_true]
  intro c hc
  rw [List.mem_append] at hc
  have hne : c ≠ ',' := by
    rcases hc with hc | hc
    · rw [List.mem_reverse] at hc
      exact groupedNat_no_comma _ c hc
    · rw [List.mem_reverse] at hc
      exact hp c hc
  simpa using hne

theorem formatCurrency_twoFrac (v : String) (h : (parseFloatQ v).isSome = true) :
    twoFracDigits (formatCurrency v) = true := by
  unfold formatCurrency
  rcases hp : parseFloatQ v with _ | q
  · rw [hp] at h
    simp at h
  · simp only
    split_ifs
    · exact twoFracDigits_prefix_centsBody "-R$ " (by decide)
        (roundHalfExpand (q * 100)).natAbs
    · exact twoFracDigits_prefix_centsBody "R$ " (by decide)
        (roundHalfExpand (q * 100)).natAbs

/-- Acceptance of a row holding the valid id `11144477735` and the
consistent `1000.00 / 10 = 100.00` installment fields, whatever its other
fields hold. -/
theorem proccess_accept_sample (d : ICSVData) (st : ProcState)
    (hid : d.nrCpfCnpj = "11144477735") (ht : d.vlTotal = "1000.00")
    (hq : d.qtPrestacoes = "10") (hp : d.vlPresta = "100.00") :
    proccess d st =
      ⟨st.success_results ++ [normalize d], st.error_results, st.count + 1⟩ := by
  apply proccess_accept
  · rw [hid]
    decide
  · rintro ⟨-, hno⟩
    rw [hid] at hno
    exact hno (by decide)
  · rintro ⟨hl, -⟩
    rw [hid] at hl
    revert hl
    decide
  · exact installments_fields_ok d ht hq hp

/-- C9 counterexample: `rowMoraNaN` is accepted, but the `vlMora` field of
its normalized record is the string `R$ NaN` — not a currency string with
exactly two fraction digits — because acceptance never validates the
monetary fields other than the three installment fields. -/
theorem normalization_two_frac_counterexample :
    (proccess rowMoraNaN initState).success_results = [normalize rowMoraNaN] ∧
    (normalize rowMoraNaN).vlMora = "R$ NaN" ∧
    twoFracDigits ((normalize rowMoraNaN).vlMora) = false := by
  refine ⟨?_, by decide, by decide⟩
  rw [proccess_accept_sample rowMoraNaN initState rfl rfl rfl rfl]
  simp [initState]

/-- C9 (amended): every accepted record is appended as `normalize` of the
raw record; the ten designated integer fields hold the base-10 integer
parse of the raw fields, the eight designated monetary fields hold the
currency rendering of the raw fields — a pt-BR BRL string with exactly two
fraction digits whenever the raw field parses as a decimal (a field that
fails to parse renders as `R$ NaN`) — and all other fields are carried over
unchanged. -/
theorem normalization_fields (d : ICSVData) (st : ProcState)
    (hacc : (proccess d st).success_results ≠ st.success_results) :
    (proccess d st).success_results = st.success_results ++ [normalize d] ∧
    ((normalize d).nrInst = parseIntZ d.nrInst ∧
     (normalize d).nrAgencia = parseIntZ d.nrAgencia ∧
     (normalize d).cdClient = parseIntZ d.cdClient ∧
     (normalize d).nrContrato = parseIntZ d.nrContrato ∧
     (normalize d).qtPrestacoes = parseIntZ d.qtPrestacoes ∧
     (normalize d).cdProduto = parseIntZ d.cdProduto ∧
     (normalize d).cdCarteira = parseIntZ d.cdCarteira ∧
     (normalize d).nrProposta = parseIntZ d.nrProposta ∧
     (normalize d).nrPresta = parseIntZ d.nrPresta ∧
     (normalize d).nrSeqPre = parseIntZ d.nrSeqPre) ∧
    ((normalize d).vlTotal = formatCurrency d.vlTotal ∧
     (normalize d).vlPresta = formatCurrency d.vlPresta ∧
     (normalize d).vlMora = formatCurrency d.vlMora ∧
     (normalize d).vlMulta = formatCurrency d.vlMulta ∧
     (normalize d).vlOutAcr = formatCurrency d.vlOutAcr ∧
     (normalize d).vlIof = formatCurrency d.vlIof ∧
     (normalize d).vlDescon = formatCurrency d.vlDescon ∧
     (normalize d).vlAtual = formatCurrency d.vlAtual) ∧
    (∀ v : String, (parseFloatQ v).isSome = true →
      twoFracDigits (formatCurrency v) = true) ∧
    ((normalize d).nmClient = d.nmClient ∧
     (normalize d).nrCpfCnpj = d.nrCpfCnpj ∧
     (normalize d).dtContrato = d.dtContrato ∧
     (normalize d).dsProduto = d.dsProduto ∧
     (normalize d).dsCarteira = d.dsCarteira ∧
     (normalize d).tpPresta = d.tpPresta ∧
     (normalize d).dtVctPre = d.dtVctPre ∧
     (normalize d).idSituac = d.idSituac ∧
     (normalize d).idSitVen = d.idSitVen) := by
  refine ⟨?_, ⟨rfl, rfl, rfl, rfl, rfl, rfl, rfl, rfl, rfl, rfl⟩,
    ⟨rfl, rfl, rfl, rfl, rfl, rfl, rfl, rfl⟩, formatCurrency_twoFrac,
    ⟨rfl, rfl, rfl, rfl, rfl, rfl, rfl, rfl, rfl⟩⟩
  rcases proccess_cases d st with h | ⟨r, -, h⟩
  · rw [h]
  · rw [h] at hacc
    simp at hacc

/-- Witness for C9 (amended) at a concrete accepted record. -/
theorem normalization_fields_witness :
    (proccess (mkRow "11144477735" "1000.00" "10" "100.00") initState).success_results =
      initState.success_results ++
        [normalize (mkRow "11144477735" "1000.00" "10" "100.00")] ∧
    twoFracDigits (formatCurrency "1000.00") = true := by
  have hacc : (proccess (mkRow "11144477735" "1000.00" "10" "100.00")
      initState).success_results ≠ initState.success_results := by
    rw [proccess_accept_sample _ initState rfl rfl rfl rfl]
    simp
  have h := normalization_fields (mkRow "11144477735" "1000.00" "10" "100.00")
    initState hacc
  exact ⟨h.1, h.2.2.2.1 "1000.00" (by decide)⟩

end CsvDataProcessor
